import Mathlib

/-!
Verification of the starlight payment-channel agent (starlight/agent.go).

The definitions below are a shallow embedding of agent.go: each Lean
function mirrors the control flow of the Go function of the same name.
Network interactions (Horizon lookups, federation resolution) are passed
in as explicit parameters, and database write-transactions are modelled
as pure state-passing functions whose error result means the transaction
rolled back with no state change.  Helpers of the repository that are
not part of agent.go (validateUsername, putUpdate, root.DeleteAgent, the
internal message package) are modelled from the specification and say so
in their doc comments.
-/

namespace Starlight

/-- Ledger account addresses, federation addresses and paging tokens are
strings, exactly as in the Go source. -/
abbrev Addr := String

/-- The error values of the starlight package that agent.go returns
(declared in errors.go; only their identity matters here, not the
wrapping context added by errors.Wrapf). -/
inductive AgentErr where
  | errAlreadyConfigured
  | errInvalidPassword
  | errInvalidUsername
  | errInvalidInput
  | errInvalidEdit
  | errEmptyConfigEdit
  | errNotConfigured
  | errPasswordsDontMatch
  | errAgentClosing
  | errExists
  | errChannelExistsRetriable
  | errEmptyAddress
  | errEmptyAmount
  | errAcctsSame
  | errNotFunded
  | errRemoteGuestMessage
  | errNoChannelSpecified
  | errInvalidChannelID
  | errFetchingAccounts
  | errInsufficientBalance
deriving DecidableEq

/-- Channel FSM states (fsm package). -/
inductive ChanState where
  | start
  | settingUp
  | channelProposed
  | awaitingFunding
  | awaitingCleanup
  | paymentChannel
  | awaitingPaymentMerge
  | awaitingClose
  | closed
  | awaitingRatchet
  | awaitingSettlement
  | awaitingSettlementMintime
deriving DecidableEq

/-- Channel roles (fsm package); `unset` is the zero value that a lookup
of a missing channel yields. -/
inductive Role where
  | unset
  | host
  | guest
deriving DecidableEq

/-- The fields of fsm.Channel that agent.go consults for channel creation
and conflict resolution. -/
structure Channel where
  id : String := ""
  role : Role := .unset
  hostAcct : Addr := ""
  guestAcct : Addr := ""
  hostAmount : Int := 0
  state : ChanState := .start
deriving DecidableEq

/-- The fields of fsm.ChannelProposeMsg consulted by agent.go. -/
structure ChannelProposeMsg where
  hostAcct : Addr := ""
  guestAcct : Addr := ""
  hostAmount : Int := 0
  hostRatchetAcct : Addr := ""
  guestRatchetAcct : Addr := ""
deriving DecidableEq

/-- Association-list lookup, modelling a read of a bolt bucket keyed by
string. -/
def lookupStr {α : Type} : List (String × α) → String → Option α
  | [], _ => none
  | (k, v) :: rest, s => if k = s then some v else lookupStr rest s

/-- Association-list write, modelling a bucket Put. -/
def setStr {α : Type} : List (String × α) → String → α → List (String × α)
  | [], k, v => [(k, v)]
  | (k0, v0) :: rest, k, v =>
      if k0 = k then (k, v) :: rest else (k0, v0) :: setStr rest k v

/-- Association-list delete, modelling a bucket Delete. -/
def delStr {α : Type} : List (String × α) → String → List (String × α)
  | [], _ => []
  | (k0, v0) :: rest, k =>
      if k0 = k then delStr rest k else (k0, v0) :: delStr rest k

/-- chans.Get on a bolt bucket yields the zero-value channel for a
missing key. -/
def getChan (channels : List (String × Channel)) (cid : String) : Channel :=
  (lookupStr channels cid).getD {}

/-- channelRole (agent.go): the role recorded for chanID, the zero value
when no such channel exists. -/
def channelRole (channels : List (String × Channel)) (chanID : String) : Role :=
  (getChan channels chanID).role

/-- resolveChannelCreateConflict (agent.go): an incoming ChannelPropose
matched an existing local channel `c`.  The result is the error written
back to the remote proposer, paired with whether a CleanUp command is
spawned on the local conflicting channel (the `go g.DoCommand` call). -/
def resolveChannelCreateConflict (ready : Bool) (c : Channel)
    (propose : ChannelProposeMsg) : AgentErr × Bool :=
  if ready = false then (.errAgentClosing, false)
  else
    match c.state with
    | .settingUp => (.errChannelExistsRetriable, false)
    | .channelProposed =>
        if propose.hostAmount < c.hostAmount ∨
            (propose.hostAmount = c.hostAmount ∧ propose.hostAcct < c.hostAcct)
        then (.errExists, false)
        else (.errChannelExistsRetriable, true)
    | .awaitingCleanup => (.errChannelExistsRetriable, false)
    | _ => (.errExists, false)

/-- checkChannelUnique (agent.go): scan the channels bucket and return
the ID of the first channel whose (host, guest) accounts match (a, b) in
either order; the Go function returns that ID together with errExists. -/
def checkChannelUnique (channels : List (String × Channel)) (a b : Addr) :
    Option String :=
  match channels with
  | [] => none
  | (cid, c) :: rest =>
      if (a = c.hostAcct ∧ b = c.guestAcct) ∨ (a = c.guestAcct ∧ b = c.hostAcct)
      then some cid
      else checkChannelUnique rest a b

/-- The phase of DoCreateChannel (agent.go) that runs before the write
transaction which creates the channel record: input validation, guest
federation lookup (`findAccount` stands for g.FindAccount), the
self-channel check, and the uniqueness check.  An error here is returned
to the caller with no write transaction ever opened. -/
def DoCreateChannelPre (primaryAcct : Addr)
    (channels : List (String × Channel))
    (findAccount : String → Except AgentErr (Addr × String))
    (guestFedAddr : String) (hostAmount : Int) : Except AgentErr Unit :=
  if guestFedAddr = "" then .error .errEmptyAddress
  else if hostAmount = 0 then .error .errEmptyAmount
  else
    match findAccount guestFedAddr with
    | .error e => .error e
    | .ok (guestAcctStr, _) =>
        if guestAcctStr = primaryAcct then .error .errAcctsSame
        else
          match checkChannelUnique channels primaryAcct guestAcctStr with
          | some _ => .error .errExists
          | none => .ok ()

/-! ### Wallet, updates and agent store -/

/-- xdr.Asset restricted to what the watcher distinguishes: the native
asset or a credit asset with code and issuer (the alphanum4/alphanum12
split is a wire-encoding detail). -/
inductive Asset where
  | native
  | credit (code : String) (issuer : Addr)
deriving DecidableEq

/-- xdr.Asset.String, used as the key of the wallet balance map. -/
def Asset.str : Asset → String
  | .native => "native"
  | .credit code issuer => code ++ "/" ++ issuer

/-- fsm.Balance; the zero value (the one Go's `var currBalance` yields)
is the default. -/
structure Balance where
  asset : Asset := .native
  amount : Int := 0
  pending : Bool := false
  authorized : Bool := false
deriving DecidableEq

/-- fsm.WalletAcct. -/
structure WalletAcct where
  nativeBalance : Int := 0
  reserve : Int := 0
  seqnum : Int := 0
  cursor : String := ""
  address : String := ""
  balances : List (String × Balance) := []
deriving DecidableEq

/-- The update records that agent.go publishes, by type, with the fields
the claims inspect (account ID and native balance for Account updates). -/
inductive UpdateRec where
  | initU (acctID : Addr)
  | configU
  | accountU (id : Addr) (balance : Int)
  | txSuccessU
  | warningU
deriving DecidableEq

/-- Whether an update record is of Account type. -/
def UpdateRec.isAccount : UpdateRec → Bool
  | .accountU _ _ => true
  | _ => false

/-- The persisted contents of the `agent` bucket tree that agent.go reads
and writes; the zero value is what reads see after root.DeleteAgent. -/
structure AgentData where
  horizonURL : String := ""
  username : String := ""
  pwType : String := ""
  pwHash : Option String := none
  encryptedSeed : Option String := none
  nextKeypathIndex : Nat := 0
  primaryAcct : Addr := ""
  ready : Bool := false
  keepAlive : Bool := false
  public : Bool := false
  maxRoundDurMins : Int := 0
  finalityDelayMins : Int := 0
  channelFeerate : Int := 0
  hostFeerate : Int := 0
  wallet : WalletAcct := {}
  channels : List (String × Channel) := []
  updates : List UpdateRec := []
deriving DecidableEq

/-- The whole store: the agent bucket tree, the sibling tasks bucket
(task count suffices for the claims below) and the in-memory acctsReady
latches. -/
structure Store where
  agent : AgentData := {}
  tasks : Nat := 0
  acctsReady : List Addr := []
deriving DecidableEq

/-- Modelled from the spec: putUpdate (updates.go, not under src) appends
an Update record to the agent's append-only updates log and registers the
subscriber broadcast as a post-commit hook. -/
def putUpdate (st : Store) (u : UpdateRec) : Store :=
  { st with agent := { st.agent with updates := st.agent.updates ++ [u] } }

/-- root.Agent().PutWallet. -/
def putWallet (st : Store) (w : WalletAcct) : Store :=
  { st with agent := { st.agent with wallet := w } }

/-- root.Agent().PutReady. -/
def putReady (st : Store) (b : Bool) : Store :=
  { st with agent := { st.agent with ready := b } }

/-- Modelled from the spec: root.DeleteAgent (db package, not under src)
deletes every bucket under the agent root, so subsequent reads see zero
values; the sibling tasks bucket is untouched. -/
def deleteAgent (st : Store) : Store :=
  { st with agent := {} }

/-- g.addTxTask: enqueue a signed transaction into the task basket. -/
def addTxTask (st : Store) : Store :=
  { st with tasks := st.tasks + 1 }

/-- baseReserve (agent.go): 500 millilumen, in stroops. -/
def baseReserve : Int := 500 * 10000

def defaultMaxRoundDurMins : Int := 60

def defaultFinalityDelayMins : Int := 60

/-- 10 millilumen, in stroops. -/
def defaultChannelFeerate : Int := 10 * 10000

/-- 100 stroops. -/
def defaultHostFeerate : Int := 100

/-! ### Wallet watcher (watchWalletAcct) -/

/-- The operation kinds the wallet watcher switches on, with the fields
it consults.  `accountMerge` carries the merged amount taken from the
transaction result; `other` covers every unhandled operation type. -/
inductive OpBody where
  | createAccount (destination : Addr) (startingBalance : Int)
  | payment (destination : Addr) (asset : Asset) (amount : Int)
  | accountMerge (destination : Addr) (mergeAmount : Int)
  | changeTrust (line : Asset) (limit : Int)
  | allowTrust (trustor : Addr) (code : String) (authorize : Bool)
  | other
deriving DecidableEq

/-- An operation together with its (resolved) source account. -/
structure Oper where
  source : Addr := ""
  body : OpBody := .other
deriving DecidableEq

/-- A transaction as delivered by the ledger stream: envelope source,
paging token, ledger number, result success flag and operations. -/
structure WTx where
  source : Addr := ""
  pt : String := ""
  ledger : Nat := 0
  success : Bool := true
  ops : List Oper := []
deriving DecidableEq

/-- Errors returned from inside the watcher's per-transaction write
transaction; any of them rolls the whole transaction back. -/
inductive WatchErr where
  | nativeTrustlineNotAllowed
deriving DecidableEq

/-- One arm of the operation switch in watchWalletAcct (agent.go).  The
`issuerAuthRequired` parameter stands for the LoadAccount call that reads
the issuer's authRequired flag. -/
def watchWalletAcctOp (acctID : Addr) (issuerAuthRequired : Addr → Bool)
    (pt : String) (ledger : Nat) (st : Store) (op : Oper) :
    Except WatchErr Store :=
  match op.body with
  | .createAccount dest startingBalance =>
      let st := { st with acctsReady := st.acctsReady.erase dest }
      if dest ≠ acctID then .ok st
      else
        let w := st.agent.wallet
        let hostFeerate := st.agent.hostFeerate
        let w := { w with
          nativeBalance := startingBalance - hostFeerate - 2 * baseReserve,
          reserve := 2 * baseReserve,
          seqnum := (ledger : Int) * 2 ^ 32,
          cursor := pt }
        let st := putWallet st w
        let st := putUpdate st (.accountU acctID w.nativeBalance)
        -- in the public case the home-domain transaction is built, signed
        -- and enqueued; the local w.Seqnum++ is never written back
        if st.agent.public then .ok (addTxTask st) else .ok st
  | .payment dest asset amount =>
      if dest ≠ acctID then .ok st
      else
        match asset with
        | .native =>
            let w := st.agent.wallet
            let w := { w with
              nativeBalance := w.nativeBalance + amount, cursor := pt }
            .ok (putUpdate (putWallet st w) (.accountU acctID w.nativeBalance))
        | .credit code issuer =>
            if issuer = acctID then .ok st
            else
              -- the Go source shadows currBalance inside the if statement,
              -- so the entry written back is the zero-value Balance
              let w := st.agent.wallet
              let w := { w with
                balances := setStr w.balances (Asset.credit code issuer).str {},
                cursor := pt }
              .ok (putUpdate (putWallet st w) (.accountU acctID w.nativeBalance))
  | .accountMerge dest mergeAmount =>
      let st1 :=
        if op.source = acctID then
          putReady (putUpdate (deleteAgent st) (.accountU acctID 0)) true
        else st
      if dest = acctID then
        let w := st1.agent.wallet
        let w := { w with
          nativeBalance := w.nativeBalance + mergeAmount, cursor := pt }
        .ok (putUpdate (putWallet st1 w) (.accountU acctID w.nativeBalance))
      else .ok st1
  | .changeTrust line limit =>
      if op.source ≠ st.agent.wallet.address then .ok st
      else if limit = 0 then
        let w := st.agent.wallet
        let w := { w with
          balances := delStr w.balances line.str,
          nativeBalance := w.nativeBalance + baseReserve,
          reserve := w.reserve - baseReserve }
        .ok (putUpdate (putWallet st w) (.accountU acctID w.nativeBalance))
      else
        match line with
        | .native => .error .nativeTrustlineNotAllowed
        | .credit _ issuer =>
            let authorized := !(issuerAuthRequired issuer)
            let w := st.agent.wallet
            let w := { w with
              balances := setStr w.balances line.str
                { asset := line, amount := 0, pending := false,
                  authorized := authorized } }
            .ok (putUpdate (putWallet st w) (.accountU acctID w.nativeBalance))
  | .allowTrust trustor code _ =>
      if trustor ≠ acctID then .ok st
      else
        let asset := Asset.credit code op.source
        -- the Go source shadows currBalance here as well, so the entry
        -- written back is again the zero-value Balance
        let w := st.agent.wallet
        let w := { w with balances := setStr w.balances asset.str {} }
        .ok (putUpdate (putWallet st w) (.accountU acctID w.nativeBalance))
  | .other => .ok st

/-- The body of the StreamTxs callback in watchWalletAcct (agent.go):
failed transactions are ignored; otherwise one write transaction records
the envelope source's success and runs the per-operation switch; an
error inside rolls the whole transaction back, and the callback discards
the db.Update error so the stream continues. -/
def watchWalletAcctTx (acctID : Addr) (issuerAuthRequired : Addr → Bool)
    (st : Store) (tx : WTx) : Store :=
  if tx.success = false then st
  else
    let st1 :=
      if tx.source = acctID then
        putUpdate (putWallet st { st.agent.wallet with cursor := tx.pt })
          .txSuccessU
      else st
    match List.foldlM (watchWalletAcctOp acctID issuerAuthRequired tx.pt tx.ledger)
        st1 tx.ops with
    | .ok st2 => st2
    | .error _ => st

/-! ### ConfigInit and ConfigEdit -/

/-- The starlight Config struct (agent.go), with Go zero values as
defaults. -/
structure ConfigC where
  username : String := ""
  password : String := ""
  horizonURL : String := ""
  oldPassword : String := ""
  maxRoundDurMins : Int := 0
  finalityDelayMins : Int := 0
  channelFeerate : Int := 0
  hostFeerate : Int := 0
  keepAlive : Option Bool := none
  public : Bool := false
deriving DecidableEq

/-- Modelled from the spec: validateUsername is defined outside agent.go;
the spec requires the username to be printable with no star character. -/
def validateUsername (u : String) : Bool :=
  u.all (fun ch => 0x20 ≤ ch.toNat && ch.toNat < 0x7f && ch != '*')

/-- The write transaction of ConfigInit (agent.go).  randRead, bcrypt and
the secret box are modelled deterministically: the stored digest and the
sealed seed are represented by the password that produced them; the
derived primary account is a parameter. -/
def ConfigInit (st : Store) (c : ConfigC) (hostURL : String)
    (primaryAcct : Addr) : Except AgentErr Store :=
  if st.agent.horizonURL ≠ "" then .error .errAlreadyConfigured
  else if c.password.utf8ByteSize > 72 then .error .errInvalidPassword
  else if c.password = "" then .error .errInvalidPassword
  else if validateUsername c.username = false then .error .errInvalidUsername
  else if c.maxRoundDurMins < 0 then .error .errInvalidInput
  else if c.finalityDelayMins < 0 then .error .errInvalidInput
  else if c.channelFeerate < 0 then .error .errInvalidInput
  else if c.hostFeerate < 0 then .error .errInvalidInput
  else
    let mrd := if c.maxRoundDurMins = 0 then defaultMaxRoundDurMins
      else c.maxRoundDurMins
    let fd := if c.finalityDelayMins = 0 then defaultFinalityDelayMins
      else c.finalityDelayMins
    let cf := if c.channelFeerate = 0 then defaultChannelFeerate
      else c.channelFeerate
    let hf := if c.hostFeerate = 0 then defaultHostFeerate else c.hostFeerate
    let ka := match c.keepAlive with | none => true | some bv => bv
    let st := { st with agent := { st.agent with
      username := c.username,
      pwType := "bcrypt",
      pwHash := some c.password,
      horizonURL := c.horizonURL,
      ready := true,
      encryptedSeed := some c.password,
      nextKeypathIndex := 1,
      primaryAcct := primaryAcct,
      maxRoundDurMins := mrd,
      finalityDelayMins := fd,
      channelFeerate := cf,
      hostFeerate := hf,
      keepAlive := ka,
      public := c.public,
      wallet := { nativeBalance := 0, seqnum := 0, cursor := "",
                  address := c.username ++ "*" ++ hostURL,
                  balances := [] } } }
    .ok (putUpdate st (.initU primaryAcct))

/-- db.Update semantics around ConfigInit: an error rolls the
transaction back, leaving the store unchanged. -/
def ConfigInitRun (st : Store) (c : ConfigC) (hostURL : String)
    (primaryAcct : Addr) : Store × Option AgentErr :=
  match ConfigInit st c hostURL primaryAcct with
  | .ok st2 => (st2, none)
  | .error e => (st, some e)

/-- The emptiness test of ConfigEdit (agent.go): the config with
OldPassword blanked compared against the zero Config. -/
def isEmptyEdit (c : ConfigC) : Bool :=
  { c with oldPassword := "" } = ({} : ConfigC)

/-- The checks of ConfigEdit (agent.go) that run before its write
transaction; `validURL` stands for wclient.ValidateTestnetURL. -/
def ConfigEditPre (validURL : String → Option AgentErr) (c : ConfigC) :
    Option AgentErr :=
  if c.username ≠ "" ∨ c.keepAlive ≠ none then some .errInvalidEdit
  else if isEmptyEdit c then some .errEmptyConfigEdit
  else if c.password.utf8ByteSize > 72 then some .errInvalidPassword
  else
    match (if c.horizonURL ≠ "" then validURL c.horizonURL else none) with
    | some e => some e
    | none =>
        if c.maxRoundDurMins < 0 then some .errInvalidInput
        else if c.finalityDelayMins < 0 then some .errInvalidInput
        else if c.channelFeerate < 0 then some .errInvalidInput
        else if c.hostFeerate < 0 then some .errInvalidInput
        else none

/-- The write transaction of ConfigEdit (agent.go).  When the stored
password type is not bcrypt the Go code returns nil early, committing
with no further writes; old-password verification compares against the
stored digest. -/
def ConfigEditTx (st : Store) (c : ConfigC) : Except AgentErr Store :=
  if st.agent.horizonURL = "" then .error .errNotConfigured
  else
    let afterPw : Except AgentErr (Option Store) :=
      if c.password ≠ "" then
        if st.agent.pwType ≠ "bcrypt" then .ok none
        else if st.agent.pwHash ≠ some c.oldPassword then
          .error .errPasswordsDontMatch
        else .ok (some { st with agent := { st.agent with
          pwType := "bcrypt", pwHash := some c.password,
          encryptedSeed := some c.password } })
      else .ok (some st)
    match afterPw with
    | .error e => .error e
    | .ok none => .ok st
    | .ok (some s1) =>
        let s2 := if c.horizonURL ≠ ""
          then { s1 with agent := { s1.agent with horizonURL := c.horizonURL } }
          else s1
        let s3 := if c.maxRoundDurMins ≠ 0
          then { s2 with agent := { s2.agent with
            maxRoundDurMins := c.maxRoundDurMins } }
          else s2
        let s4 := if c.finalityDelayMins ≠ 0
          then { s3 with agent := { s3.agent with
            finalityDelayMins := c.finalityDelayMins } }
          else s3
        let s5 := if c.channelFeerate ≠ 0
          then { s4 with agent := { s4.agent with
            channelFeerate := c.channelFeerate } }
          else s4
        let s6 := if c.hostFeerate ≠ 0
          then { s5 with agent := { s5.agent with
            hostFeerate := c.hostFeerate } }
          else s5
        .ok (putUpdate s6 .configU)

/-- ConfigEdit (agent.go) end to end: the pre-transaction checks, then
the write transaction with rollback on error. -/
def ConfigEditRun (validURL : String → Option AgentErr) (st : Store)
    (c : ConfigC) : Store × Option AgentErr :=
  match ConfigEditPre validURL c with
  | some e => (st, some e)
  | none =>
      match ConfigEditTx st c with
      | .ok st2 => (st2, none)
      | .error e => (st, some e)

/-! ### Peer RPC: handleMsg -/

/-- The fields of fsm.Message that handleMsg consults. -/
structure PeerMsg where
  channelID : String := ""
  proposeMsg : Option ChannelProposeMsg := none
deriving DecidableEq

/-- How handleMsg disposes of a message: an error written back to the
peer, or entry into updateChannel, which applies updater.Msg to it. -/
inductive HandleOutcome where
  | errorResp (e : AgentErr)
  | applied
deriving DecidableEq

/-- handleMsg (agent.go), after JSON decoding.  `validAddr` stands for
xdr address parsing of the channel ID, `seqnums` for the Horizon
sequence-number fetch of getSequenceNumbers (none meaning it failed).
The second component records whether conflict resolution spawned a
CleanUp command. -/
def handleMsg (ready : Bool) (channels : List (String × Channel))
    (validAddr : String → Bool) (seqnums : Option (Int × Int × Int))
    (m : PeerMsg) : HandleOutcome × Bool :=
  if m.channelID = "" then (.errorResp .errNoChannelSpecified, false)
  else
    match m.proposeMsg with
    | some propose =>
        match checkChannelUnique channels propose.hostAcct propose.guestAcct with
        | some cid =>
            let r := resolveChannelCreateConflict ready (getChan channels cid)
              propose
            (.errorResp r.1, r.2)
        | none =>
            if validAddr m.channelID = false
            then (.errorResp .errInvalidChannelID, false)
            else
              match seqnums with
              | none => (.errorResp .errFetchingAccounts, false)
              | some _ =>
                  if channelRole channels m.channelID = .host
                  then (.errorResp .errRemoteGuestMessage, false)
                  else (.applied, false)
    | none =>
        if channelRole channels m.channelID = .host
        then (.errorResp .errRemoteGuestMessage, false)
        else (.applied, false)

/-! ### Messages and WaitMsg -/

/-- The per-channel outbound message log of the internal message
package: entries pair a message number with its payload. -/
abbrev MsgLog := List (Nat × String)

/-- Modelled from the spec: the internal message package is not under
src.  Its From method is specified by the doc comment on Agent.Messages:
it returns the stored messages with numbers in the half-open interval
offered by the caller. -/
def msgFrom (entries : MsgLog) (a b : Nat) : MsgLog :=
  entries.filter (fun p => decide (a ≤ p.1) && decide (p.1 < b))

/-- Messages (agent.go): look up the channel's log under a read
transaction; a channel with no log yields no messages and no error. -/
def Messages (msgs : List (String × MsgLog)) (chanID : String) (a b : Nat) :
    MsgLog :=
  match lookupStr msgs chanID with
  | some entries => msgFrom entries a b
  | none => []

/-- A message log is well formed when its numbers strictly increase,
which is how putMessage builds it (m.Add assigns consecutive numbers). -/
abbrev MsgLogWF (entries : MsgLog) : Prop :=
  entries.Pairwise (fun p q => p.1 < q.1)

/-- The per-channel LastSeqNum map that WaitMsg polls through
lastMsgNum (agent.go). -/
abbrev MsgNumStore := List (String × Nat)

/-- lastMsgNum (agent.go): zero for an unknown channel. -/
def lastMsgNum (store : MsgNumStore) (chanID : String) : Nat :=
  (lookupStr store chanID).getD 0

/-- putMessage (agent.go), at the granularity WaitMsg observes: m.Add
assigns the next sequence number and the map entry is written back; the
condition broadcast is registered as an OnCommit hook of the enclosing
transaction, never run directly. -/
def putMessageStore (store : MsgNumStore) (chanID : String) : MsgNumStore :=
  setStr store chanID (lastMsgNum store chanID + 1)

/-- The phases of the WaitMsg loop: checking the condition, blocked in
evcond.Wait, or returned. -/
inductive WaiterPhase where
  | checking
  | blocked
  | returned
deriving DecidableEq

/-- The state of the WaitMsg / putMessage system: the committed message
store, at most one open write transaction (its working copy and whether
the broadcast hook was registered), the number of broadcasts emitted,
the broadcast count last seen by the waiter, whether the waiter's
context is cancelled, and the waiter phase. -/
structure WSys where
  committed : MsgNumStore := []
  pending : Option (MsgNumStore × Bool) := none
  signals : Nat := 0
  seen : Nat := 0
  ctxDone : Bool := false
  waiter : WaiterPhase := .checking
deriving DecidableEq

/-- One step of the WaitMsg / putMessage system for a waiter executing
WaitMsg(ctx, cid, i).  Writes of putMessage go to the open transaction's
working copy and its broadcast is only emitted at commit (putMessage
registers it via OnCommit); a rollback emits nothing.  The waiter blocks
only while lastMsgNum < i with the context live (the loop condition of
WaitMsg), wakes only on a broadcast it has not yet seen, and returns
only when the loop condition fails; context cancellation broadcasts via
the goroutine WaitMsg spawns. -/
inductive WStep (cid : String) (i : Nat) : WSys → WSys → Prop where
  | beginTx (s : WSys) : s.pending = none →
      WStep cid i s { s with pending := some (s.committed, false) }
  | putMsg (s : WSys) (p : MsgNumStore) (h : Bool) (c : String) :
      s.pending = some (p, h) →
      WStep cid i s { s with pending := some (putMessageStore p c, true) }
  | commitTx (s : WSys) (p : MsgNumStore) (h : Bool) :
      s.pending = some (p, h) →
      WStep cid i s { s with committed := p, pending := none,
                             signals := s.signals + (if h then 1 else 0) }
  | rollbackTx (s : WSys) (p : MsgNumStore) (h : Bool) :
      s.pending = some (p, h) →
      WStep cid i s { s with pending := none }
  | cancelCtx (s : WSys) :
      WStep cid i s { s with ctxDone := true, signals := s.signals + 1 }
  | waitBlock (s : WSys) : s.waiter = .checking →
      lastMsgNum s.committed cid < i → s.ctxDone = false →
      WStep cid i s { s with waiter := .blocked, seen := s.signals }
  | wake (s : WSys) : s.waiter = .blocked → s.seen < s.signals →
      WStep cid i s { s with waiter := .checking }
  | exitLoop (s : WSys) : s.waiter = .checking →
      (i ≤ lastMsgNum s.committed cid ∨ s.ctxDone = true) →
      WStep cid i s { s with waiter := .returned }

/-- States reachable from the initial system state (no messages, no open
transaction, waiter checking). -/
inductive WReach (cid : String) (i : Nat) : WSys → Prop where
  | init : WReach cid i {}
  | step (s t : WSys) : WReach cid i s → WStep cid i s t → WReach cid i t

/-! ### Concrete fixtures used by counterexamples and witnesses -/

/-- Alice's local channel: she is host `GA` with a pending proposal of
50 to guest `GG`. -/
def tieChannelA : Channel :=
  { id := "CID-A", role := .host, hostAcct := "GA", guestAcct := "GG",
    hostAmount := 50, state := .channelProposed }

/-- Bob's local channel: he is host `GB` with a pending proposal of 50
to guest `GG` (the two agents proposed to each other simultaneously). -/
def tieChannelB : Channel :=
  { id := "CID-B", role := .host, hostAcct := "GB", guestAcct := "GG",
    hostAmount := 50, state := .channelProposed }

/-- Bob's proposal as it arrives at Alice. -/
def tieProposeB : ChannelProposeMsg :=
  { hostAcct := "GB", guestAcct := "GG", hostAmount := 50 }

/-- Alice's proposal as it arrives at Bob. -/
def tieProposeA : ChannelProposeMsg :=
  { hostAcct := "GA", guestAcct := "GG", hostAmount := 50 }

/-- A channel between host H and guest G that has already closed. -/
def closedChanHG : Channel :=
  { id := "CID-HG", role := .host, hostAcct := "H", guestAcct := "G",
    hostAmount := 100, state := .closed }

/-- A live (payment-state) channel between host H and guest G. -/
def liveChanHG : Channel :=
  { id := "CID-HG2", role := .host, hostAcct := "H", guestAcct := "G",
    hostAmount := 70, state := .paymentChannel }

/-- A wallet that already holds a trustline for asset T issued by I,
with a nonempty cursor. -/
def c3Wallet : WalletAcct :=
  { nativeBalance := 1000000, reserve := 5000000, seqnum := 7,
    cursor := "cursor-5", address := "W",
    balances := [("T/I", { asset := .credit "T" "I", amount := 0,
                           pending := false, authorized := true })] }

/-- A configured store owning c3Wallet. -/
def c3Store : Store :=
  { agent := { horizonURL := "https://horizon-testnet.example",
               ready := true, wallet := c3Wallet } }

/-- A successful ledger transaction, from a third party, whose only
operation removes the wallet's trustline (ChangeTrust with limit 0). -/
def c3Tx : WTx :=
  { source := "X", pt := "cursor-7", ledger := 3, success := true,
    ops := [{ source := "W", body := .changeTrust (.credit "T" "I") 0 }] }

/-- A configured store with defaults everywhere else. -/
def cfgStorePub : Store :=
  { agent := { horizonURL := "https://horizon-testnet.example" } }

/-- An edit that sets only the Public flag. -/
def cPublicOnly : ConfigC := { public := true }

/-- A channel recorded with local role Host under ID X. -/
def hostChanX : Channel :=
  { id := "X", role := .host, hostAcct := "H", guestAcct := "G",
    hostAmount := 10, state := .paymentChannel }

/-! ## Theorems -/

/-! ### C1: tie-break on simultaneous channel proposals -/

/-- C1: with equal hostAmounts and host addresses GA < GB, the claim
(and the spec, and the code's own log lines) says the proposal of the
lexicographically smaller host GA wins.  The code does the opposite:
at Alice (local host GA) the incoming proposal from GB is answered with
the retriable error and Alice's own channel is cleaned up, so GB's
proposal continues; at Bob (local host GB) the incoming proposal from
GA is answered with the permanent errExists, so GA's proposal dies.
The lexicographically larger host address wins the tie. -/
theorem c1_tie_break_favors_larger_host_address :
    resolveChannelCreateConflict true tieChannelA tieProposeB
      = (.errChannelExistsRetriable, true) ∧
    resolveChannelCreateConflict true tieChannelB tieProposeA
      = (.errExists, false) := by
  constructor <;>
    · simp [resolveChannelCreateConflict, tieChannelA, tieChannelB,
        tieProposeA, tieProposeB, String.lt_iff_toList_lt]
      decide

/-! ### C2: at most one channel per (host, guest) pair -/

/-- C2 counterexample: with only a Closed channel between H and G on
record, a new DoCreateChannel attempt for the same pair still fails with
errExists, because checkChannelUnique never looks at the channel state;
this refutes the claim that attempts matching only a Closed channel
succeed. -/
theorem c2_closed_channel_still_blocks_creation :
    DoCreateChannelPre "H" [("CID-HG", closedChanHG)]
      (fun _ => .ok ("G", "https://bob.example"))
      "bob*bob.example" 100 = .error .errExists := by
  simp [DoCreateChannelPre, checkChannelUnique, closedChanHG]

/-- If some stored channel matches (a, b) in either order, the scan in
checkChannelUnique reports a match. -/
theorem checkChannelUnique_isSome_of_match
    (channels : List (String × Channel)) (a b : Addr) (cid : String)
    (c : Channel) (hmem : (cid, c) ∈ channels)
    (hmatch : (c.hostAcct = a ∧ c.guestAcct = b) ∨
              (c.hostAcct = b ∧ c.guestAcct = a)) :
    (checkChannelUnique channels a b).isSome := by
  induction channels with
  | nil => cases hmem
  | cons hd tl ih =>
      obtain ⟨k, ch⟩ := hd
      rw [checkChannelUnique]
      by_cases hcond :
          (a = ch.hostAcct ∧ b = ch.guestAcct) ∨ (a = ch.guestAcct ∧ b = ch.hostAcct)
      · rw [if_pos hcond]
        rfl
      · rw [if_neg hcond]
        rcases List.mem_cons.mp hmem with heq | hmem2
        · injection heq with h1 h2
          subst h2
          exact absurd (by tauto) hcond
        · exact ih hmem2

/-- C2 (amended): a DoCreateChannel attempt whose resolved (host, guest)
pair matches an existing channel in either order fails with errExists
regardless of the state of the existing channel (Closed included), and
an incoming ChannelPropose for a matching pair is answered by conflict
resolution with errExists or the retriable exists error whenever the
agent is ready; in both cases the attempt stops with an error before any
channel record is written. -/
theorem c2_matching_pair_always_fails (primaryAcct b : Addr)
    (channels : List (String × Channel))
    (findAccount : String → Except AgentErr (Addr × String))
    (guestFedAddr url : String) (hostAmount : Int)
    (cid : String) (c : Channel)
    (hmem : (cid, c) ∈ channels)
    (hmatch : (c.hostAcct = primaryAcct ∧ c.guestAcct = b) ∨
              (c.hostAcct = b ∧ c.guestAcct = primaryAcct))
    (hfed : guestFedAddr ≠ "") (hamt : hostAmount ≠ 0)
    (hfa : findAccount guestFedAddr = .ok (b, url))
    (hdiff : b ≠ primaryAcct) :
    DoCreateChannelPre primaryAcct channels findAccount guestFedAddr hostAmount
        = .error .errExists ∧
    ∀ ready cc propose, ready = true →
      (resolveChannelCreateConflict ready cc propose).1 = .errExists ∨
      (resolveChannelCreateConflict ready cc propose).1
        = .errChannelExistsRetriable := by
  constructor
  · have hsome := checkChannelUnique_isSome_of_match channels primaryAcct b cid c
      hmem (by tauto)
    obtain ⟨x, hx⟩ := Option.isSome_iff_exists.mp hsome
    rw [DoCreateChannelPre, if_neg hfed, if_neg hamt, hfa]
    simp [hdiff, hx]
  · intro ready cc propose hready
    subst hready
    cases hst : cc.state <;>
      simp only [resolveChannelCreateConflict, hst, Bool.true_eq_false,
        if_false, reduceIte] <;>
      (try split) <;> simp

/-- C2 witness: the amended theorem applied to a concrete store holding
one channel (state PaymentChannel) between H and G. -/
theorem c2_matching_pair_always_fails_witness :
    DoCreateChannelPre "H" [("CID-HG2", liveChanHG)]
      (fun _ => .ok ("G", "https://bob.example")) "bob*bob.example" 25
      = .error .errExists :=
  (c2_matching_pair_always_fails "H" "G" [("CID-HG2", liveChanHG)]
    (fun _ => .ok ("G", "https://bob.example")) "bob*bob.example"
    "https://bob.example" 25 "CID-HG2" liveChanHG
    (List.mem_singleton.mpr rfl) (Or.inl ⟨rfl, rfl⟩)
    (by decide) (by decide) rfl (by decide)).1

/-! ### C10: DoCreateChannel rejects a channel with oneself -/

/-- C10: when the guest federation address resolves to the agent's own
primary account, DoCreateChannel fails with errAcctsSame; the check runs
in the pre-transaction phase, before any state is written. -/
theorem c10_self_channel_rejected (primaryAcct : Addr)
    (channels : List (String × Channel))
    (findAccount : String → Except AgentErr (Addr × String))
    (guestFedAddr url : String) (hostAmount : Int)
    (hfed : guestFedAddr ≠ "") (hamt : hostAmount ≠ 0)
    (hfa : findAccount guestFedAddr = .ok (primaryAcct, url)) :
    DoCreateChannelPre primaryAcct channels findAccount guestFedAddr hostAmount
      = .error .errAcctsSame := by
  rw [DoCreateChannelPre, if_neg hfed, if_neg hamt, hfa]
  simp

/-- C10 witness: a concrete self-channel attempt is rejected. -/
theorem c10_self_channel_rejected_witness :
    DoCreateChannelPre "SELF" [] (fun _ => .ok ("SELF", "https://me.example"))
      "me*me.example" 40 = .error .errAcctsSame :=
  c10_self_channel_rejected "SELF" [] (fun _ => .ok ("SELF", "https://me.example"))
    "me*me.example" "https://me.example" 40 (by decide) (by decide) rfl

/-! ### C4: account merge wipes the agent -/

/-- C4: when the wallet watcher sees an AccountMerge whose source is the
primary account (and whose destination is another account), every bucket
under the agent root is erased, a single Account-type update with
balance 0 is published into the fresh tree, and ready is set to true so
the agent can be reconfigured; the sibling tasks bucket and the
in-memory latches are untouched. -/
theorem c4_account_merge_erases_agent (acctID dest : Addr)
    (flags : Addr → Bool) (pt : String) (ledger : Nat) (st : Store)
    (amount : Int) (hdest : dest ≠ acctID) :
    watchWalletAcctOp acctID flags pt ledger st
        { source := acctID, body := .accountMerge dest amount }
      = .ok { agent := { ready := true, updates := [.accountU acctID 0] },
              tasks := st.tasks, acctsReady := st.acctsReady } := by
  simp [watchWalletAcctOp, putReady, putUpdate, deleteAgent, hdest]

/-- C4 witness: a concrete merge of the primary account wipes a concrete
populated store. -/
theorem c4_account_merge_erases_agent_witness :
    watchWalletAcctOp "ACCT" (fun _ => false) "pt-9" 12 c3Store
        { source := "ACCT", body := .accountMerge "OTHER" 777 }
      = .ok { agent := { ready := true, updates := [.accountU "ACCT" 0] },
              tasks := c3Store.tasks, acctsReady := c3Store.acctsReady } :=
  c4_account_merge_erases_agent "ACCT" "OTHER" (fun _ => false) "pt-9" 12
    c3Store 777 (by decide)

/-! ### C5: ConfigInit validation -/

/-- Lifting an error of the ConfigInit transaction through db.Update's
rollback. -/
theorem ConfigInitRun_error (st : Store) (c : ConfigC) (hostURL : String)
    (acct : Addr) (e : AgentErr)
    (h : ConfigInit st c hostURL acct = .error e) :
    ConfigInitRun st c hostURL acct = (st, some e) := by
  rw [ConfigInitRun, h]

/-- C5: on an unconfigured agent, ConfigInit rejects an empty password
and an over-72-byte password with errInvalidPassword, a non-printable or
starred username with errInvalidUsername, and any negative numeric field
with errInvalidInput; every validation failure rolls the transaction
back, leaving the store unchanged. -/
theorem c5_ConfigInit_validation (st : Store) (c : ConfigC)
    (hostURL : String) (acct : Addr) (hconf : st.agent.horizonURL = "") :
    (c.password = "" →
      ConfigInitRun st c hostURL acct = (st, some .errInvalidPassword)) ∧
    (c.password.utf8ByteSize > 72 →
      ConfigInitRun st c hostURL acct = (st, some .errInvalidPassword)) ∧
    (c.password ≠ "" → c.password.utf8ByteSize ≤ 72 →
      validateUsername c.username = false →
      ConfigInitRun st c hostURL acct = (st, some .errInvalidUsername)) ∧
    (c.password ≠ "" → c.password.utf8ByteSize ≤ 72 →
      validateUsername c.username = true →
      (c.maxRoundDurMins < 0 ∨ c.finalityDelayMins < 0 ∨
        c.channelFeerate < 0 ∨ c.hostFeerate < 0) →
      ConfigInitRun st c hostURL acct = (st, some .errInvalidInput)) ∧
    (∀ e, (ConfigInitRun st c hostURL acct).2 = some e →
      (ConfigInitRun st c hostURL acct).1 = st) := by
  have hc : ¬ st.agent.horizonURL ≠ "" := by simp [hconf]
  refine ⟨?_, ?_, ?_, ?_, ?_⟩
  · intro hpw
    apply ConfigInitRun_error
    rw [ConfigInit, if_neg hc]
    simp [hpw]
  · intro hlen
    apply ConfigInitRun_error
    rw [ConfigInit, if_neg hc, if_pos hlen]
  · intro hpw hlen husr
    apply ConfigInitRun_error
    rw [ConfigInit, if_neg hc, if_neg (by omega), if_neg hpw]
    simp [husr]
  · intro hpw hlen husr hnum
    apply ConfigInitRun_error
    rw [ConfigInit, if_neg hc, if_neg (by omega), if_neg hpw,
      if_neg (by simp [husr])]
    rcases hnum with h | h | h | h <;> split_ifs <;> first | rfl | omega
  · intro e he
    rw [ConfigInitRun] at he ⊢
    cases hr : ConfigInit st c hostURL acct with
    | error e2 => simp [hr]
    | ok st2 =>
        rw [hr] at he
        simp at he

/-- C5 witness: a concrete ConfigInit with an empty password fails with
errInvalidPassword and writes nothing. -/
theorem c5_ConfigInit_validation_witness :
    ConfigInitRun {} { username := "alice", password := "" }
        "h.example" "ACCT" = ({}, some .errInvalidPassword) :=
  (c5_ConfigInit_validation {} { username := "alice", password := "" }
    "h.example" "ACCT" rfl).1 rfl

/-! ### C6: ConfigEdit gatekeeping -/

/-- C6 counterexample: an edit that sets only Public — not one of the
editable fields — is not rejected as an empty edit: it succeeds and
appends a Config update, refuting the claim that every edit whose
editable fields are all empty fails with the empty-edit error. -/
theorem c6_public_only_edit_not_rejected :
    ConfigEditRun (fun _ => none) cfgStorePub cPublicOnly
      = (putUpdate cfgStorePub .configU, none) := by
  rfl

/-- C6 (amended): ConfigEdit rejects any edit naming the username or
keepAlive with errInvalidEdit; an edit in which every field other than
OldPassword is unset — Public included, since Public is compared against
its zero value by the emptiness test — fails with errEmptyConfigEdit;
and every pre-transaction failure leaves the store unchanged.  (An edit
setting only Public slips past the emptiness test and succeeds while
changing no configuration.) -/
theorem c6_ConfigEdit_gatekeeping (validURL : String → Option AgentErr)
    (st : Store) (c : ConfigC) :
    (c.username ≠ "" ∨ c.keepAlive ≠ none →
      ConfigEditRun validURL st c = (st, some .errInvalidEdit)) ∧
    (c.username = "" → c.keepAlive = none → c.password = "" →
      c.horizonURL = "" → c.maxRoundDurMins = 0 → c.finalityDelayMins = 0 →
      c.channelFeerate = 0 → c.hostFeerate = 0 → c.public = false →
      ConfigEditRun validURL st c = (st, some .errEmptyConfigEdit)) ∧
    (∀ e, ConfigEditPre validURL c = some e →
      ConfigEditRun validURL st c = (st, some e)) := by
  refine ⟨?_, ?_, ?_⟩
  · intro hbad
    rw [ConfigEditRun, ConfigEditPre, if_pos hbad]
  · intro h1 h2 h3 h4 h5 h6 h7 h8 h9
    have hempty : isEmptyEdit c = true := by
      cases c
      simp_all [isEmptyEdit]
    rw [ConfigEditRun, ConfigEditPre, if_neg (by simp [h1, h2]),
      if_pos hempty]
  · intro e he
    rw [ConfigEditRun, he]

/-- C6 witness: a concrete edit naming the username fails with
errInvalidEdit and changes nothing. -/
theorem c6_ConfigEdit_gatekeeping_witness :
    ConfigEditRun (fun _ => none) cfgStorePub { username := "mallory" }
      = (cfgStorePub, some .errInvalidEdit) :=
  (c6_ConfigEdit_gatekeeping (fun _ => none) cfgStorePub
    { username := "mallory" }).1 (Or.inl (by decide))

/-! ### C3: cursor discipline of the wallet watcher -/

/-- C3 counterexample: the watcher applies a ChangeTrust operation — it
removes the trustline and publishes an Account update — yet leaves the
cursor at its old value instead of the transaction's paging token. -/
theorem c3_change_trust_does_not_advance_cursor :
    (watchWalletAcctTx "ACCT" (fun _ => false) c3Store c3Tx).agent.updates
        = [.accountU "ACCT" 6000000] ∧
    (watchWalletAcctTx "ACCT" (fun _ => false) c3Store c3Tx).agent.wallet.cursor
        = "cursor-5" ∧
    c3Tx.pt = "cursor-7" := by
  refine ⟨?_, ?_, rfl⟩ <;> rfl

/-- After one applied watcher operation, the wallet cursor is either
unchanged, the transaction's paging token, or empty (agent erased by an
account merge). -/
theorem watchOp_cursor (acctID : Addr) (flags : Addr → Bool) (pt : String)
    (ledger : Nat) (st : Store) (op : Oper) (st2 : Store)
    (h : watchWalletAcctOp acctID flags pt ledger st op = .ok st2) :
    st2.agent.wallet.cursor = st.agent.wallet.cursor ∨
    st2.agent.wallet.cursor = pt ∨ st2.agent.wallet.cursor = "" := by
  obtain ⟨src, body⟩ := op
  cases body with
  | createAccount dest sb =>
      simp only [watchWalletAcctOp] at h
      by_cases hd : dest ≠ acctID
      · rw [if_pos hd] at h
        injection h with h2
        subst h2
        left
        rfl
      · rw [if_neg hd] at h
        split at h <;> (injection h with h2; subst h2; right; left; rfl)
  | payment dest asset amount =>
      cases asset with
      | native =>
          simp only [watchWalletAcctOp] at h
          by_cases hd : dest ≠ acctID
          · rw [if_pos hd] at h
            injection h with h2
            subst h2
            left
            rfl
          · rw [if_neg hd] at h
            injection h with h2
            subst h2
            right
            left
            rfl
      | credit code issuer =>
          simp only [watchWalletAcctOp] at h
          by_cases hd : dest ≠ acctID
          · rw [if_pos hd] at h
            injection h with h2
            subst h2
            left
            rfl
          · rw [if_neg hd] at h
            by_cases hi : issuer = acctID
            · rw [if_pos hi] at h
              injection h with h2
              subst h2
              left
              rfl
            · rw [if_neg hi] at h
              injection h with h2
              subst h2
              right
              left
              rfl
  | accountMerge dest amt =>
      simp only [watchWalletAcctOp] at h
      by_cases hs : src = acctID <;> by_cases hd : dest = acctID <;>
        simp only [hs, hd, if_pos, if_neg, reduceIte, if_true, if_false] at h <;>
        (injection h with h2; subst h2)
      · right; left; rfl
      · right; right; rfl
      · right; left; rfl
      · left; rfl
  | changeTrust line limit =>
      simp only [watchWalletAcctOp] at h
      by_cases hsrc : src ≠ st.agent.wallet.address
      · rw [if_pos hsrc] at h
        injection h with h2
        subst h2
        left
        rfl
      · rw [if_neg hsrc] at h
        by_cases hl : limit = 0
        · rw [if_pos hl] at h
          injection h with h2
          subst h2
          left
          rfl
        · rw [if_neg hl] at h
          cases line with
          | native => exact absurd h (by simp)
          | credit code issuer =>
              injection h with h2
              subst h2
              left
              rfl
  | allowTrust trustor code auth =>
      simp only [watchWalletAcctOp] at h
      by_cases ht : trustor ≠ acctID
      · rw [if_pos ht] at h
        injection h with h2
        subst h2
        left
        rfl
      · rw [if_neg ht] at h
        injection h with h2
        subst h2
        left
        rfl
  | other =>
      simp only [watchWalletAcctOp] at h
      injection h with h2
      subst h2
      left
      rfl

/-- The cursor discipline extends along the operation fold of one
watcher transaction. -/
theorem watchOps_cursor (acctID : Addr) (flags : Addr → Bool) (pt : String)
    (ledger : Nat) :
    ∀ (ops : List Oper) (st st2 : Store),
      List.foldlM (watchWalletAcctOp acctID flags pt ledger) st ops = .ok st2 →
      st2.agent.wallet.cursor = st.agent.wallet.cursor ∨
      st2.agent.wallet.cursor = pt ∨ st2.agent.wallet.cursor = "" := by
  intro ops
  induction ops with
  | nil =>
      intro st st2 h
      simp only [List.foldlM_nil] at h
      injection h with h2
      subst h2
      left
      rfl
  | cons op rest ih =>
      intro st st2 h
      rw [List.foldlM_cons] at h
      cases hop : watchWalletAcctOp acctID flags pt ledger st op with
      | error e =>
          rw [hop] at h
          have h2 : (Except.error e : Except WatchErr Store) = .ok st2 := h
          exact Except.noConfusion h2
      | ok st1 =>
          rw [hop] at h
          have h2 : List.foldlM (watchWalletAcctOp acctID flags pt ledger)
              st1 rest = .ok st2 := h
          rcases ih st1 st2 h2 with h1 | h1 | h1 <;>
            rcases watchOp_cursor acctID flags pt ledger st op st1 hop
              with h0 | h0 | h0 <;>
            simp [h1, h0]

/-- C3 (amended): applied CreateAccount (of the primary account),
Payment (to the primary account) and AccountMerge (into the primary
account) operations set the wallet cursor to the transaction's paging
token and publish one Account-type update; applied ChangeTrust and
AllowTrust operations publish one Account-type update but leave the
cursor unchanged; and across a whole streamed transaction the cursor
ends as the previous cursor, the transaction's paging token, or empty
when an AccountMerge from the primary account erased the agent — so the
cursor never moves backwards while the stream delivers paging tokens at
or above it and the agent is not erased. -/
theorem c3_watcher_cursor_discipline (acctID : Addr) (flags : Addr → Bool)
    (pt : String) (ledger : Nat) (st : Store) :
    (∀ src sb st2,
      watchWalletAcctOp acctID flags pt ledger st
          { source := src, body := .createAccount acctID sb } = .ok st2 →
      st2.agent.wallet.cursor = pt ∧
      ∃ bal, st2.agent.updates = st.agent.updates ++ [.accountU acctID bal]) ∧
    (∀ src amt st2,
      watchWalletAcctOp acctID flags pt ledger st
          { source := src, body := .payment acctID .native amt } = .ok st2 →
      st2.agent.wallet.cursor = pt ∧
      ∃ bal, st2.agent.updates = st.agent.updates ++ [.accountU acctID bal]) ∧
    (∀ src amt st2, src ≠ acctID →
      watchWalletAcctOp acctID flags pt ledger st
          { source := src, body := .accountMerge acctID amt } = .ok st2 →
      st2.agent.wallet.cursor = pt ∧
      ∃ bal, st2.agent.updates = st.agent.updates ++ [.accountU acctID bal]) ∧
    (∀ line limit st2,
      watchWalletAcctOp acctID flags pt ledger st
          { source := st.agent.wallet.address, body := .changeTrust line limit }
        = .ok st2 →
      st2.agent.wallet.cursor = st.agent.wallet.cursor ∧
      ∃ bal, st2.agent.updates = st.agent.updates ++ [.accountU acctID bal]) ∧
    (∀ src code auth st2,
      watchWalletAcctOp acctID flags pt ledger st
          { source := src, body := .allowTrust acctID code auth } = .ok st2 →
      st2.agent.wallet.cursor = st.agent.wallet.cursor ∧
      ∃ bal, st2.agent.updates = st.agent.updates ++ [.accountU acctID bal]) ∧
    (∀ tx : WTx,
      (watchWalletAcctTx acctID flags st tx).agent.wallet.cursor
          = st.agent.wallet.cursor ∨
      (watchWalletAcctTx acctID flags st tx).agent.wallet.cursor = tx.pt ∨
      (watchWalletAcctTx acctID flags st tx).agent.wallet.cursor = "") := by
  refine ⟨?_, ?_, ?_, ?_, ?_, ?_⟩
  · intro src sb st2 h
    simp only [watchWalletAcctOp] at h
    rw [if_neg (by simp)] at h
    split at h <;> (injection h with h2; subst h2; exact ⟨rfl, _, rfl⟩)
  · intro src amt st2 h
    simp only [watchWalletAcctOp] at h
    rw [if_neg (by simp)] at h
    injection h with h2
    subst h2
    exact ⟨rfl, _, rfl⟩
  · intro src amt st2 hsrc h
    simp only [watchWalletAcctOp] at h
    rw [if_neg hsrc] at h
    simp only [if_true, reduceIte] at h
    injection h with h2
    subst h2
    exact ⟨rfl, _, rfl⟩
  · intro line limit st2 h
    simp only [watchWalletAcctOp] at h
    rw [if_neg (by simp)] at h
    by_cases hl : limit = 0
    · rw [if_pos hl] at h
      injection h with h2
      subst h2
      exact ⟨rfl, _, rfl⟩
    · rw [if_neg hl] at h
      cases line with
      | native => exact absurd h (by simp)
      | credit code issuer =>
          injection h with h2
          subst h2
          exact ⟨rfl, _, rfl⟩
  · intro src code auth st2 h
    simp only [watchWalletAcctOp] at h
    rw [if_neg (by simp)] at h
    injection h with h2
    subst h2
    exact ⟨rfl, _, rfl⟩
  · intro tx
    rw [watchWalletAcctTx]
    by_cases hs : tx.success = false
    · rw [if_pos hs]
      left
      rfl
    · rw [if_neg hs]
      by_cases hsrc : tx.source = acctID
      · simp only [hsrc, if_pos, reduceIte]
        cases hfold : List.foldlM (watchWalletAcctOp acctID flags tx.pt tx.ledger)
            (putUpdate (putWallet st { st.agent.wallet with cursor := tx.pt })
              .txSuccessU) tx.ops with
        | error e => simp [hfold]
        | ok stf =>
            simp only [hfold]
            rcases watchOps_cursor acctID flags tx.pt tx.ledger tx.ops _ stf hfold
              with h1 | h1 | h1 <;> simp [h1, putUpdate, putWallet]
      · simp only [hsrc, if_neg, reduceIte]
        cases hfold : List.foldlM (watchWalletAcctOp acctID flags tx.pt tx.ledger)
            st tx.ops with
        | error e => simp [hfold]
        | ok stf =>
            simp only [hfold]
            rcases watchOps_cursor acctID flags tx.pt tx.ledger tx.ops _ stf hfold
              with h1 | h1 | h1 <;> simp [h1]

/-- C3 witness: a concrete applied CreateAccount of the primary account
sets the cursor to the paging token and publishes an Account update. -/
theorem c3_watcher_cursor_discipline_witness :
    ((watchWalletAcctOp "ACCT" (fun _ => false) "pt-3" 9 {}
        { source := "F", body := .createAccount "ACCT" 100000000 }).map
      (fun st2 => st2.agent.wallet.cursor)) = .ok "pt-3" := by
  obtain ⟨st2, hok⟩ : ∃ st2, watchWalletAcctOp "ACCT" (fun _ => false) "pt-3" 9 {}
      { source := "F", body := .createAccount "ACCT" 100000000 } = .ok st2 :=
    ⟨_, rfl⟩
  have h2 := ((c3_watcher_cursor_discipline "ACCT" (fun _ => false) "pt-3" 9
    {}).1 "F" 100000000 st2 hok).1
  rw [hok]
  simp [Except.map, h2]

/-! ### C7: peer messages for Host-role channels are rejected -/

/-- C7: whenever the locally recorded role for the message's channel ID
is Host, handleMsg answers the peer with an error and never reaches
updateChannel, so the message is not applied to the FSM. -/
theorem c7_host_role_message_rejected (ready : Bool)
    (channels : List (String × Channel)) (validAddr : String → Bool)
    (seqnums : Option (Int × Int × Int)) (m : PeerMsg)
    (hrole : channelRole channels m.channelID = .host) :
    (∃ e, (handleMsg ready channels validAddr seqnums m).1 = .errorResp e) ∧
    (handleMsg ready channels validAddr seqnums m).1 ≠ .applied := by
  have herr : ∃ e,
      (handleMsg ready channels validAddr seqnums m).1 = .errorResp e := by
    by_cases hid : m.channelID = ""
    · exact ⟨.errNoChannelSpecified, by simp [handleMsg, hid]⟩
    · cases hp : m.proposeMsg with
      | none =>
          exact ⟨.errRemoteGuestMessage, by simp [handleMsg, hid, hp, hrole]⟩
      | some propose =>
          cases hcu : checkChannelUnique channels propose.hostAcct
              propose.guestAcct with
          | some cid =>
              refine ⟨(resolveChannelCreateConflict ready (getChan channels cid)
                propose).1, ?_⟩
              simp [handleMsg, hid, hp, hcu]
          | none =>
              by_cases hva : validAddr m.channelID = false
              · exact ⟨.errInvalidChannelID,
                  by simp [handleMsg, hid, hp, hcu, hva]⟩
              · cases seqnums with
                | none => exact ⟨.errFetchingAccounts,
                    by simp [handleMsg, hid, hp, hcu, hva]⟩
                | some sq => exact ⟨.errRemoteGuestMessage,
                    by simp [handleMsg, hid, hp, hcu, hva, hrole]⟩
  obtain ⟨e, he⟩ := herr
  refine ⟨⟨e, he⟩, ?_⟩
  rw [he]
  simp

/-- C7 witness: a concrete message addressed to a Host-role channel is
rejected. -/
theorem c7_host_role_message_rejected_witness :
    (∃ e, (handleMsg true [("X", hostChanX)] (fun _ => true) none
      { channelID := "X" }).1 = .errorResp e) ∧
    (handleMsg true [("X", hostChanX)] (fun _ => true) none
      { channelID := "X" }).1 ≠ .applied :=
  c7_host_role_message_rejected true [("X", hostChanX)] (fun _ => true) none
    { channelID := "X" } (by decide)

/-! ### C9: the Messages window -/

/-- C9: Messages(chanID, a, b) returns only messages with numbers in the
half-open interval, at most b - a of them when the stored log is well
formed, and the empty slice — never an error — for an unknown channel. -/
theorem c9_Messages_window (msgs : List (String × MsgLog)) (chanID : String)
    (a b : Nat) :
    (∀ p ∈ Messages msgs chanID a b, a ≤ p.1 ∧ p.1 < b) ∧
    (∀ entries, lookupStr msgs chanID = some entries → MsgLogWF entries →
      (Messages msgs chanID a b).length ≤ b - a) ∧
    (lookupStr msgs chanID = none → Messages msgs chanID a b = []) := by
  refine ⟨?_, ?_, ?_⟩
  · intro p hp
    rw [Messages] at hp
    cases hl : lookupStr msgs chanID with
    | none =>
        rw [hl] at hp
        cases hp
    | some entries =>
        rw [hl] at hp
        have hmem := List.of_mem_filter hp
        simpa using hmem
  · intro entries hl hwf
    rw [Messages, hl]
    have hsub : (msgFrom entries a b).Sublist entries := List.filter_sublist _
    have hpw : (msgFrom entries a b).Pairwise (fun p q => p.1 < q.1) :=
      hwf.sublist hsub
    have hmap : ((msgFrom entries a b).map Prod.fst).Pairwise (· < ·) :=
      List.pairwise_map.mpr hpw
    have hnodup : ((msgFrom entries a b).map Prod.fst).Nodup :=
      hmap.imp Nat.ne_of_lt
    have hsubset : ∀ x ∈ (msgFrom entries a b).map Prod.fst,
        x ∈ Finset.Ico a b := by
      intro x hx
      obtain ⟨p, hp, rfl⟩ := List.mem_map.mp hx
      have hmem := List.of_mem_filter hp
      simp at hmem
      exact Finset.mem_Ico.mpr hmem
    calc (msgFrom entries a b).length
        = ((msgFrom entries a b).map Prod.fst).length :=
          (List.length_map _ _).symm
      _ = ((msgFrom entries a b).map Prod.fst).toFinset.card :=
          (List.toFinset_card_of_nodup hnodup).symm
      _ ≤ (Finset.Ico a b).card :=
          Finset.card_le_card
            (fun x hx => hsubset x (List.mem_toFinset.mp hx))
      _ = b - a := Nat.card_Ico a b
  · intro hl
    rw [Messages, hl]

/-- C9 witness: three stored messages, window [2, 3). -/
theorem c9_Messages_window_witness :
    (∀ p ∈ Messages [("ch", [(1, "m1"), (2, "m2"), (3, "m3")])] "ch" 2 3,
      2 ≤ p.1 ∧ p.1 < 3) ∧
    (Messages [("ch", [(1, "m1"), (2, "m2"), (3, "m3")])] "ch" 2 3).length
      ≤ 3 - 2 :=
  ⟨(c9_Messages_window [("ch", [(1, "m1"), (2, "m2"), (3, "m3")])] "ch" 2 3).1,
    (c9_Messages_window [("ch", [(1, "m1"), (2, "m2"), (3, "m3")])] "ch" 2
      3).2.1 [(1, "m1"), (2, "m2"), (3, "m3")] (by decide) (by decide)⟩

/-! ### C8: WaitMsg and post-commit broadcast -/

/-- Reading back through an association-list write. -/
theorem lookupStr_setStr {α : Type} (l : List (String × α)) (k s : String)
    (v : α) :
    lookupStr (setStr l k v) s = if k = s then some v else lookupStr l s := by
  induction l with
  | nil =>
      by_cases h : k = s <;> simp [setStr, lookupStr, h]
  | cons hd tl ih =>
      obtain ⟨k0, v0⟩ := hd
      by_cases h0 : k0 = k
      · subst h0
        by_cases hs : k0 = s <;> simp [setStr, lookupStr, hs]
      · by_cases hs : k0 = s
        · subst hs
          have hks : ¬ k = k0 := fun he => h0 he.symm
          simp [setStr, lookupStr, h0, hks]
        · simp [setStr, lookupStr, h0, hs, ih]

/-- putMessage never lowers any channel's last message number. -/
theorem lastMsgNum_putMessageStore_ge (store : MsgNumStore) (c cid : String) :
    lastMsgNum store cid ≤ lastMsgNum (putMessageStore store c) cid := by
  rw [lastMsgNum, lastMsgNum, putMessageStore, lookupStr_setStr]
  by_cases h : c = cid
  · subst h
    simp [lastMsgNum]
  · simp [h]

/-- Invariant of the WaitMsg / putMessage system: an open transaction's
working copy is never behind the committed store on the waiter's
channel, and a returned waiter saw its message number or a cancelled
context. -/
theorem waitMsg_invariant (cid : String) (i : Nat) (s : WSys)
    (h : WReach cid i s) :
    (∀ p hb, s.pending = some (p, hb) →
      lastMsgNum s.committed cid ≤ lastMsgNum p cid) ∧
    (s.waiter = .returned →
      i ≤ lastMsgNum s.committed cid ∨ s.ctxDone = true) := by
  induction h with
  | init =>
      refine ⟨?_, ?_⟩
      · intro p hb hpb
        simp at hpb
      · intro hw
        simp at hw
  | step s t hs hstep ih =>
      obtain ⟨ih1, ih2⟩ := ih
      cases hstep with
      | beginTx hp =>
          refine ⟨?_, fun hw => ih2 hw⟩
          intro p hb hpb
          simp at hpb
          obtain ⟨h1, h2⟩ := hpb
          subst h1
          exact le_refl _
      | putMsg p0 h0 c hp =>
          refine ⟨?_, fun hw => ih2 hw⟩
          intro p hb hpb
          simp at hpb
          obtain ⟨h1, h2⟩ := hpb
          subst h1
          exact le_trans (ih1 p0 h0 hp) (lastMsgNum_putMessageStore_ge p0 c cid)
      | commitTx p0 h0 hp =>
          refine ⟨?_, ?_⟩
          · intro p hb hpb
            simp at hpb
          · intro hw
            rcases ih2 hw with h1 | h1
            · exact Or.inl (le_trans h1 (ih1 p0 h0 hp))
            · exact Or.inr h1
      | rollbackTx p0 h0 hp =>
          refine ⟨?_, fun hw => ih2 hw⟩
          intro p hb hpb
          simp at hpb
      | cancelCtx =>
          exact ⟨fun p hb hpb => ih1 p hb hpb, fun _ => Or.inr rfl⟩
      | waitBlock hw0 hlt hctx =>
          refine ⟨fun p hb hpb => ih1 p hb hpb, ?_⟩
          intro hw
          simp at hw
      | wake hw0 hsig =>
          refine ⟨fun p hb hpb => ih1 p hb hpb, ?_⟩
          intro hw
          simp at hw
      | exitLoop hw0 hcond =>
          exact ⟨fun p hb hpb => ih1 p hb hpb, fun _ => hcond⟩

/-- C8: in every reachable state of the WaitMsg / putMessage system, a
returned waiter implies that a message numbered at least i is visible in
the committed store or the context was cancelled.  The broadcast that
wakes waiters is emitted only by the commit step — putMessage merely
registers it as an OnCommit hook — so a waiter never observes pre-commit
state. -/
theorem c8_WaitMsg_post_commit (cid : String) (i : Nat) (s : WSys)
    (h : WReach cid i s) (hret : s.waiter = .returned) :
    i ≤ lastMsgNum s.committed cid ∨ s.ctxDone = true :=
  (waitMsg_invariant cid i s h).2 hret

/-- C8 witness: a run that opens a transaction, appends one message for
channel c, commits (emitting the broadcast), and lets the waiter on
message number 1 exit. -/
theorem c8_WaitMsg_post_commit_witness :
    1 ≤ lastMsgNum [("c", 1)] "c" ∨
      ({ committed := [("c", 1)], signals := 1,
         waiter := .returned } : WSys).ctxDone = true := by
  have h0 : WReach "c" 1 {} := WReach.init
  have h1 : WReach "c" 1 { pending := some ([], false) } :=
    WReach.step _ _ h0 (WStep.beginTx {} rfl)
  have h2 : WReach "c" 1 { pending := some ([("c", 1)], true) } :=
    WReach.step _ _ h1 (WStep.putMsg _ [] false "c" rfl)
  have h3 : WReach "c" 1 { committed := [("c", 1)], signals := 1 } :=
    WReach.step _ _ h2 (WStep.commitTx _ [("c", 1)] true rfl)
  have h4 : WReach "c" 1
      { committed := [("c", 1)], signals := 1, waiter := .returned } :=
    WReach.step _ _ h3 (WStep.exitLoop _ rfl (Or.inl (by decide)))
  exact c8_WaitMsg_post_commit "c" 1 _ h4 rfl

end Starlight
